import Mathlib

/-!
Shallow embedding of the ts-fs in-memory filesystem (src/index.ts): the
permission model, node constructors, path operations, tree resolution, the
session environment and the command tokenizer/dispatcher.

Modelling conventions.  JS strings are modelled by Lean strings; the JS
string methods used by the source (split on a one-character separator,
Array.join, startsWith, endsWith) are modelled as the js-prefixed helpers
below, defined on the character list so that every operation is executable
and kernel-reducible.  JS numbers appearing here are small naturals; the
bitwise and is Nat.land and the right shift is Nat.shiftRight.  Date values
are numeric timestamps passed explicitly.  Code paths that throw in JS
(property access on undefined) are modelled by explicit error outcomes.
-/

namespace TsFs

/-- One read/write/execute triad (FsPermission in the source). -/
structure FsPermission where
  read : Bool
  write : Bool
  execute : Bool
deriving DecidableEq

/-- The user/group/other permission set (FsPermissions in the source). -/
structure FsPermissions where
  user : FsPermission
  group : FsPermission
  other : FsPermission
deriving DecidableEq

/-- FsUser record from the source. -/
structure FsUser where
  name : String
  uid : Nat
  gid : Nat
  groups : List Nat
deriving DecidableEq

/-- FsGroup record from the source. -/
structure FsGroup where
  name : String
  gid : Nat
deriving DecidableEq

/-- Owner block of FsMetadata; fsGroups lookup may give undefined, hence
the Option on the group. -/
structure FsOwner where
  user : FsUser
  group : Option FsGroup
deriving DecidableEq

/-- FsMetadata from the source; the name is null only for the root and the
Date is a numeric timestamp. -/
structure FsMeta where
  name : Option String
  owner : FsOwner
  permissions : FsPermissions
  modified : Nat
deriving DecidableEq

/-- FsNode: the tagged union of File and Directory, each carrying its
metadata.  A directory holds its children in insertion order. -/
inductive FsNode where
  | file (md : FsMeta) (contents : String)
  | directory (md : FsMeta) (contents : List FsNode)

/-- Metadata of a node. -/
def FsNode.md : FsNode → FsMeta
  | .file m _ => m
  | .directory m _ => m

/-- The node.name field. -/
def FsNode.name (n : FsNode) : Option String := n.md.name

/-- The node.permissions field. -/
def FsNode.permissions (n : FsNode) : FsPermissions := n.md.permissions

/-- Whether node.type is the string "file". -/
def FsNode.isFile : FsNode → Bool
  | .file _ _ => true
  | .directory _ _ => false

/-- The defaultPermissions table. -/
structure DefaultPermissions where
  DIRECTORY : FsPermissions
  FILE : FsPermissions
deriving DecidableEq

/-- The literal defaultPermissions object of the source: the DIRECTORY
entry is rwxrwxr-x and the FILE entry is rw-rw-r--. -/
def defaultPermissions : DefaultPermissions :=
  ⟨⟨⟨true, true, true⟩, ⟨true, true, true⟩, ⟨true, false, true⟩⟩,
   ⟨⟨true, true, false⟩, ⟨true, true, false⟩, ⟨true, false, false⟩⟩⟩

/-- The fixed user registry fsUsers of the source. -/
def rootUser : FsUser := ⟨"root", 0, 0, []⟩

/-- The second registered user. -/
def nyxUser : FsUser := ⟨"nyx", 1000, 1000, []⟩

/-- The fixed group registry entry for gid 0. -/
def rootGroup : FsGroup := ⟨"root", 0⟩

/-- The fixed group registry entry for gid 1000. -/
def nyxGroup : FsGroup := ⟨"nyx", 1000⟩

/-- Indexing the fsUsers record: defined for uids 0 and 1000 only. -/
def fsUsers (uid : Nat) : Option FsUser :=
  if uid = 0 then some rootUser else if uid = 1000 then some nyxUser else none

/-- Indexing the fsGroups record: defined for gids 0 and 1000 only. -/
def fsGroups (gid : Nat) : Option FsGroup :=
  if gid = 0 then some rootGroup else if gid = 1000 then some nyxGroup else none

/-- JS Number(c) for a single character as consumed by the permission
decoder: a decimal digit maps to its value.  Any other character gives
NaN, and NaN under the JS ToInt32 conversion performed by the bitwise and
is 0, so it is modelled as 0 (observationally equivalent for the
decoder). -/
def jsDigit (c : Char) : Nat :=
  if c.isDigit then c.toNat - 48 else 0

/-- Decode one permission digit exactly as the source does: each masked
bit is compared with the literal 1, i.e. read is digit land 4 == 1, write
is digit land 2 == 1, execute is digit land 1 == 1. -/
def decodeDigit (d : Nat) : FsPermission :=
  ⟨(d &&& 4) == 1, (d &&& 2) == 1, (d &&& 1) == 1⟩

/-- The argument union of the FsPermissions function: a symbolic string, a
numeric mode, or an existing permission set. -/
inductive PermSpec where
  | str (s : String)
  | num (n : Nat)
  | perms (p : FsPermissions)

/-- The FsPermissions function of the source (it shares the name of the
type).  String argument: split into characters and apply Number to each.
Numeric argument: the source ignores the given number and hardcodes the
three base-8 digits of 0o655, least-significant first, so index 0 (fed to
the user triad) is 5, index 1 is 5 and index 2 is 6.  Existing set:
returned unchanged.  Out-of-range indexing on a short array yields
undefined and undefined land mask is 0 under ToInt32, hence getD with
default 0. -/
def FsPermissions.fromSpec : PermSpec → FsPermissions
  | .perms p => p
  | .str s =>
    let perms := s.data.map jsDigit
    ⟨decodeDigit (perms.getD 0 0), decodeDigit (perms.getD 1 0),
     decodeDigit (perms.getD 2 0)⟩
  | .num _ =>
    let perms := [0o655 &&& 0o7, (0o655 >>> 3) &&& 0o7, (0o655 >>> 6) &&& 0o7]
    ⟨decodeDigit (perms.getD 0 0), decodeDigit (perms.getD 1 0),
     decodeDigit (perms.getD 2 0)⟩

/-- JS s.startsWith(p): p is a prefix of s. -/
def jsStartsWith (s p : String) : Bool := p.data.isPrefixOf s.data

/-- JS s.endsWith(p): p is a suffix of s. -/
def jsEndsWith (s p : String) : Bool := p.data.isSuffixOf s.data

/-- JS s.split(sep) for a one-character separator, on the character list:
cut at every separator occurrence; adjacent separators produce empty
pieces and the empty string splits to one empty piece. -/
def jsSplitChar (sep : Char) : List Char → List String
  | [] => [""]
  | c :: rest =>
    if c == sep then "" :: jsSplitChar sep rest
    else
      match jsSplitChar sep rest with
      | [] => [String.mk [c]]
      | t :: ts => String.mk (c :: t.data) :: ts

/-- JS s.split(sep) lifted to strings. -/
def jsSplit (s : String) (sep : Char) : List String := jsSplitChar sep s.data

/-- JS Array.join(sep). -/
def jsJoin (sep : String) : List String → String
  | [] => ""
  | [x] => x
  | x :: xs => x ++ sep ++ jsJoin sep xs

/-- The Path value: a wrapped raw string. -/
structure Path where
  path : String
deriving DecidableEq

/-- isAbsolute: the raw string starts with the separator. -/
def Path.isAbsolute (p : Path) : Bool := jsStartsWith p.path "/"

/-- parts: split the raw string on the separator and drop the empty
segments (the filter keeps truthy, i.e. nonempty, strings). -/
def Path.parts (p : Path) : List String :=
  (jsSplit p.path '/').filter (fun v => v != "")

/-- append for a string part: string concatenation, inserting a separator
unless the current raw string already ends with one. -/
def Path.append (p : Path) (part : String) : Path :=
  if jsEndsWith p.path "/" then ⟨p.path ++ part⟩ else ⟨p.path ++ "/" ++ part⟩

/-- append for a Path part: the source first takes its toString, which is
the raw string. -/
def Path.appendPath (p q : Path) : Path := p.append q.path

/-- One step of the canonicalization loop: a dot-dot segment pops the
output stack (JS Array.pop on an empty array is a no-op, hence dropLast),
a dot is skipped, every other segment is pushed. -/
def canonStep (res : List String) (part : String) : List String :=
  if part = ".." then res.dropLast
  else if part = "." then res
  else res ++ [part]

/-- canonicalize, with the ambient env.cwd passed explicitly: a relative
path is first rebased by appending it onto the cwd, then the segments are
folded through canonStep and re-joined behind a single leading
separator. -/
def Path.canonicalize (p : Path) (cwd : Path) : Path :=
  ⟨"/" ++ jsJoin "/" (((if p.isAbsolute then p else cwd.appendPath p).parts).foldl canonStep [])⟩

/-- The per-session execution environment: current user, current working
directory, and the variables record (modelled as an association list,
looked up with List.lookup). -/
structure Env where
  user : FsUser
  cwd : Path
  env : List (String × String)
deriving DecidableEq

/-- Outcome of the Env constructor: either the built environment, or the
JS TypeError thrown when a property of undefined is accessed. -/
inductive EnvResult where
  | ok (e : Env)
  | typeError

/-- The Env function of the source.  It indexes fsUsers with no check: for
an unknown uid the lookup is undefined and the following user.name access
throws a TypeError, modelled as the typeError outcome. -/
def Env.create (uid : Nat) : EnvResult :=
  match fsUsers uid with
  | none => .typeError
  | some user =>
    let home := (Path.mk "/home").append user.name
    .ok ⟨user, home,
      [("HOME", home.path), ("PWD", home.path), ("TMPDIR", "/tmp"),
       ("PS1", "[%u@%h:%p]$ "), ("PATH", "/bin")]⟩

/-- The ambient global env of the source, Env(1000): user nyx with home
and cwd /home/nyx. -/
def env : Env :=
  ⟨nyxUser, ⟨"/home/nyx"⟩,
   [("HOME", "/home/nyx"), ("PWD", "/home/nyx"), ("TMPDIR", "/tmp"),
    ("PS1", "[%u@%h:%p]$ "), ("PATH", "/bin")]⟩

/-- The global env is exactly what Env(1000) builds. -/
theorem env_def : Env.create 1000 = .ok env := rfl

/-- The FsFile constructor: FsFile(name, content?, owner?, permissions?),
with the Date passed explicitly as now.  An omitted owner defaults to the
ambient env.user.  Note that the source resolves an omitted permissions
argument through the DIRECTORY entry of defaultPermissions, not the FILE
entry. -/
def FsFile (now : Nat) (name : Option String) (content : Option String)
    (owner : Option FsUser) (permissions : Option PermSpec) : FsNode :=
  let owner := owner.getD env.user
  let perms := FsPermissions.fromSpec (permissions.getD (.perms defaultPermissions.DIRECTORY))
  .file ⟨name, ⟨owner, fsGroups owner.gid⟩, perms, now⟩ (content.getD "")

/-- The FsDirectory constructor: FsDirectory(name, files?, owner?,
permissions?), with the Date passed explicitly as now. -/
def FsDirectory (now : Nat) (name : Option String) (files : Option (List FsNode))
    (owner : Option FsUser) (permissions : Option PermSpec) : FsNode :=
  let owner := owner.getD env.user
  let perms := FsPermissions.fromSpec (permissions.getD (.perms defaultPermissions.DIRECTORY))
  .directory ⟨name, ⟨owner, fsGroups owner.gid⟩, perms, now⟩ (files.getD [])

/-- The filesystem: an owned root node. -/
structure Fs where
  root : FsNode

/-- The walking loop of Fs.resolve.  The end-of-parts check precedes the
file check, so a file reached with no segments left is returned; a file
with segments remaining is an invalid path (undefined); the child scan
takes the first name match and fails if none matches. -/
def resolveSeg : List String → FsNode → Option FsNode
  | [], n => some n
  | _ :: _, .file _ _ => none
  | p :: rest, .directory _ children =>
    match children.find? (fun c => c.name == some p) with
    | none => none
    | some c => resolveSeg rest c

/-- Fs.resolve: walk the untouched segment sequence of the path from the
root. -/
def Fs.resolve (F : Fs) (p : Path) : Option FsNode := resolveSeg p.parts F.root

/-- The user.txt file of the seeded tree (owner omitted, so it defaults to
the ambient user). -/
def userTxt : FsNode := FsFile 0 (some "user.txt") (some "Hello World!") none none

/-- The seeded global filesystem of the source, transcribed node for node
(timestamps fixed at 0). -/
def fs : Fs :=
  ⟨FsDirectory 0 none
    (some
      [FsDirectory 0 (some "bin")
        (some [FsFile 0 (some "tree")
          (some "bins.tree(fs.resolve(Path($@.join()).canonicalize()))") none none])
        (some rootUser) none,
       FsDirectory 0 (some "home")
        (some [FsDirectory 0 (some "nyx")
          (some
            [FsDirectory 0 (some "some dir")
              (some
                [FsDirectory 0 (some "another dir")
                  (some [FsFile 0 (some "Hello World") (some "Wow thats a lot of spaces") none none,
                         FsFile 0 (some "NoSpace") (some "Wow thats a lot of spaces") none none])
                  none none,
                 FsDirectory 0 (some "oops, all dir")
                  (some [FsFile 0 (some "nodir") (some "Wow thats a lot of spaces") none none,
                         FsFile 0 (some "even-some-hypens") (some "Wow thats a lot of spaces") none none])
                  none none])
              none none,
             FsDirectory 0 (some ".config")
              (some
                [FsDirectory 0 (some "nvim")
                  (some [FsFile 0 (some "init.lua") (some "Check ../emacs/init.el") none none])
                  none none,
                 FsDirectory 0 (some "emacs")
                  (some [FsFile 0 (some "init.el") (some "(load-theme \x27catppuccin t)") none none])
                  none none])
              none none,
             userTxt])
          none none])
        (some rootUser) none,
       FsDirectory 0 (some "root")
        (some [FsFile 0 (some "root.txt") (some "Hello R00t!") none none])
        (some rootUser) (some (.num 0o770))])
    (some rootUser) none⟩

/-- The character scanner inlined at the top of handleCommand.  It tracks
the previous raw input character (the indexing v at i minus 1, which is
none at the start), the quoted flag, the token being accumulated and the
emitted tokens.  An unescaped double quote toggles the quoted flag and is
not emitted; a space outside quoted mode ends the current token; every
other character (including a quote preceded by a backslash) accumulates;
the final token is pushed unconditionally after the loop. -/
def tokenizeLoop : List Char → Option Char → Bool → String → List String → List String
  | [], _, _, part, res => res ++ [part]
  | c :: rest, prev, quoted, part, res =>
    if c == '"' && prev != some '\\' then
      tokenizeLoop rest (some c) (!quoted) part res
    else if c == ' ' && !quoted then
      tokenizeLoop rest (some c) quoted "" (res ++ [part])
    else
      tokenizeLoop rest (some c) quoted (part.push c) res

/-- The tokenizer entry point. -/
def tokenize (v : String) : List String := tokenizeLoop v.data none false "" []

/-- The replaceAll performed on an executable's contents before eval: the
placeholder is replaced by a JSON-like array text of the quoted
arguments. -/
def substArgs (contents : String) (args : List String) : String :=
  contents.replace "$@" ("[" ++ jsJoin "," (args.map (fun v => "\"" ++ v ++ "\"")) ++ "]")

/-- The PATH loop of handleCommand.  The pair records the value returned
to the caller (the source returns no value on any path, so this component
is always none, i.e. undefined) and the list of strings handed to eval, in
order.  A PATH entry that resolves to a directory holding no matching
executable File makes the whole function return at once; after an eval the
loop continues with the next entry; a PATH entry that does not resolve to
a directory is skipped. -/
def dispatchLoop (F : Fs) (cmd : String) (args : List String) :
    List String → Option String × List String
  | [] => (none, [])
  | p :: rest =>
    match F.resolve ⟨p⟩ with
    | some (.directory _ children) =>
      match children.find? (fun f => f.name == some cmd) with
      | none => (none, [])
      | some exe =>
        match exe with
        | .file _ contents =>
          let r := dispatchLoop F cmd args rest
          (r.1, substArgs contents args :: r.2)
        | .directory _ _ => (none, [])
    | _ => dispatchLoop F cmd args rest

/-- handleCommand(v) with the ambient env and fs passed explicitly: split
the line into tokens, destructure into command name and arguments, and run
the PATH loop over the colon-separated PATH variable.  PATH is always
seeded by Env; a missing key would throw in JS and is defaulted to the
empty string here (never exercised).  The empty-token-list branch is
unreachable because the tokenizer always emits the final token. -/
def handleCommand (E : Env) (F : Fs) (v : String) : Option String × List String :=
  match tokenize v with
  | [] => (none, [])
  | cmd :: args => dispatchLoop F cmd args (jsSplit ((E.env.lookup "PATH").getD "") ':')

/-- Whether PATH entry p contributes no executable File named cmd: either
it does not resolve to a directory, or no child of that directory is a
File carrying that name. -/
def noExecMatch (F : Fs) (cmd : String) (p : String) : Bool :=
  match F.resolve ⟨p⟩ with
  | some (.directory _ children) =>
    children.all (fun n => !(n.name == some cmd && n.isFile))
  | _ => true

/-!
Helper lemmas shared by the claim theorems.
-/

/-- A string extended on the left with the separator starts with the
separator. -/
theorem jsStartsWith_slash_append (s : String) : jsStartsWith ("/" ++ s) "/" = true := by
  cases s with
  | mk l =>
    show List.isPrefixOf ['/'] ('/' :: l) = true
    simp [List.isPrefixOf]

/-- Folding canonStep over a segment list free of dot and dot-dot appends
every segment to the accumulator. -/
theorem foldl_canonStep : ∀ (l acc : List String),
    (∀ s ∈ l, s ≠ ".." ∧ s ≠ ".") → l.foldl canonStep acc = acc ++ l := by
  intro l
  induction l with
  | nil => intro acc _; simp
  | cons x xs ih =>
    intro acc h
    have hx := h x (List.mem_cons_self x xs)
    have hxs : ∀ s ∈ xs, s ≠ ".." ∧ s ≠ "." := fun s hs => h s (List.mem_cons_of_mem x hs)
    simp only [List.foldl_cons]
    rw [show canonStep acc x = acc ++ [x] by
          unfold canonStep
          rw [if_neg hx.1, if_neg hx.2],
        ih _ hxs, List.append_assoc]
    rfl

/-- Resolution composes over concatenation of segment sequences. -/
theorem resolveSeg_append (pre suf : List String) :
    ∀ n : FsNode, resolveSeg (pre ++ suf) n = (resolveSeg pre n).bind (fun m => resolveSeg suf m) := by
  induction pre with
  | nil => intro n; rfl
  | cons p pre ih =>
    intro n
    cases n with
    | file md c => rfl
    | directory md children =>
      simp only [List.cons_append, resolveSeg]
      cases hf : children.find? (fun c => c.name == some p) with
      | none => rfl
      | some c => exact ih c

/-- The tokenizer loop never produces an empty token list: the base case
emits the accumulated token unconditionally. -/
theorem tokenizeLoop_ne_nil :
    ∀ (cs : List Char) (prev : Option Char) (quoted : Bool) (part : String) (res : List String),
      tokenizeLoop cs prev quoted part res ≠ [] := by
  intro cs
  induction cs with
  | nil =>
    intro prev quoted part res
    simp [tokenizeLoop]
  | cons c rest ih =>
    intro prev quoted part res
    unfold tokenizeLoop
    split
    · exact ih _ _ _ _
    · split
      · exact ih _ _ _ _
      · exact ih _ _ _ _

/-- The PATH loop returns undefined and evaluates nothing when every PATH
entry contributes no executable File named cmd. -/
theorem dispatchLoop_noMatch (F : Fs) (cmd : String) (args : List String) :
    ∀ paths : List String, paths.all (noExecMatch F cmd) = true →
      dispatchLoop F cmd args paths = (none, []) := by
  intro paths
  induction paths with
  | nil => intro _; rfl
  | cons p rest ih =>
    intro h
    rw [List.all_cons, Bool.and_eq_true] at h
    obtain ⟨h1, h2⟩ := h
    cases hr : F.resolve ⟨p⟩ with
    | none =>
      simp only [dispatchLoop, hr]
      exact ih h2
    | some node =>
      cases node with
      | file md contents =>
        simp only [dispatchLoop, hr]
        exact ih h2
      | directory md children =>
        unfold noExecMatch at h1
        rw [hr] at h1
        simp only [List.all_eq_true] at h1
        simp only [dispatchLoop, hr]
        cases hfind : children.find? (fun f => f.name == some cmd) with
        | none => rfl
        | some exe =>
          cases exe with
          | directory _ _ => rfl
          | file md2 c2 =>
            have hmem := List.mem_of_find?_eq_some hfind
            have hp := List.find?_some hfind
            have hp2 : (FsNode.name (FsNode.file md2 c2) == some cmd) = true := hp
            have hall := h1 _ hmem
            rw [hp2] at hall
            simp [FsNode.isFile] at hall

/-!
The claims.
-/

/-- Claim C1: refuted on the source (code bug).  The decoder bitwise-ands
each digit with 4, 2, 1 but compares the result with the literal 1 instead
of testing it non-zero, so the read and write bits can never come out
true: the valid symbolic string "754" decodes to user with execute only,
group with execute only, other with nothing — not to user rwx, group r-x,
other r-- as the claim states. -/
theorem perm_decode_754 :
    FsPermissions.fromSpec (.str "754") =
      ⟨⟨false, false, true⟩, ⟨false, false, true⟩, ⟨false, false, false⟩⟩ ∧
    FsPermissions.fromSpec (.str "754") ≠
      ⟨⟨true, true, true⟩, ⟨true, false, true⟩, ⟨true, false, false⟩⟩ := by
  exact ⟨rfl, by decide⟩

/-- Claim C2: refuted on the source (code bug).  The numeric branch
ignores its argument entirely: every numeric mode decodes the hardcoded
base-8 digits of 0o655 (and feeds the least-significant digit to the user
triad), so modes 0o777 and 0 produce identical permission sets. -/
theorem perm_numeric_ignores_input :
    FsPermissions.fromSpec (.num 0o777) = FsPermissions.fromSpec (.num 0) ∧
    FsPermissions.fromSpec (.num 0o777) =
      ⟨⟨false, false, true⟩, ⟨false, false, true⟩, ⟨false, false, false⟩⟩ := by
  exact ⟨rfl, rfl⟩

/-- Claim C3: refuted on the source (code bug).  A File constructed with
the permissions argument omitted receives the DIRECTORY entry of
defaultPermissions (rwxrwxr-x, passed through unchanged by the permission
constructor), and that set differs from the FILE default rw-rw-r-- the
claim names — the FILE entry exists in the table but is never used. -/
theorem fsFile_default_permissions :
    (FsFile 0 (some "f") none none none).permissions = defaultPermissions.DIRECTORY ∧
    defaultPermissions.DIRECTORY ≠ defaultPermissions.FILE := by
  exact ⟨rfl, by decide⟩

/-- Claim C4, counterexample: on the seeded tree (PATH is /bin, whose only
child is the file tree) the dispatcher invoked on the unmatched command
line "nosuchcmd" returns undefined — modelled none, the only value the
source function ever returns — and evaluates nothing; its result carries
no CommandNotFound condition, so the no-match outcome is exactly the
ignored/undefined one the claim rules out. -/
theorem handleCommand_nosuchcmd_undefined :
    handleCommand env fs "nosuchcmd" = (none, []) := rfl

/-- Claim C4, amended: for every command line whose command name matches
no executable File in any directory listed in PATH, handleCommand returns
undefined (none) and hands nothing to eval — the failure is silent and no
CommandNotFound condition is surfaced to the caller. -/
theorem handleCommand_no_match (E : Env) (F : Fs) (v : String)
    (h : ∀ cmd args, tokenize v = cmd :: args →
      (jsSplit ((E.env.lookup "PATH").getD "") ':').all (noExecMatch F cmd) = true) :
    handleCommand E F v = (none, []) := by
  unfold handleCommand
  cases htok : tokenize v with
  | nil => rfl
  | cons cmd args => exact dispatchLoop_noMatch F cmd args _ (h cmd args htok)

/-- Witness for the amended claim C4 at the concrete line "absent x" on
the seeded environment and tree. -/
theorem handleCommand_no_match_witness :
    handleCommand env fs "absent x" = (none, []) :=
  handleCommand_no_match env fs "absent x" (by
    intro cmd args htok
    have h : ("absent" :: ["x"] : List String) = cmd :: args := htok
    injection h with h1 h2
    subst h1
    rfl)

/-- Claim C5, counterexample: uid 5 is not in the identity registry, so
the lookup inside Env is undefined and the user.name access throws a
TypeError — the constructor crashes instead of producing an
UnknownIdentity error value, and no such value exists in its outcome
type. -/
theorem envCreate_unknown_uid_crashes : Env.create 5 = .typeError := rfl

/-- Claim C5, amended: for every uid not present in the identity registry,
Env crashes with a TypeError on the undefined user lookup rather than
reporting an UnknownIdentity error as an explicit result value. -/
theorem envCreate_unknown_uid (uid : Nat) (h : fsUsers uid = none) :
    Env.create uid = .typeError := by
  unfold Env.create
  rw [h]

/-- Witness for the amended claim C5 at the concrete uid 7. -/
theorem envCreate_unknown_uid_witness :
    fsUsers 7 = none ∧ Env.create 7 = .typeError :=
  ⟨rfl, envCreate_unknown_uid 7 rfl⟩

/-- Claim C6: confirmed.  Canonicalization follows the stack algorithm: an
absolute input is processed as-is (the cwd is irrelevant), with dot-dot
popping the stack, so /a/b/../c resolves to /a/c for every cwd; a relative
input is first rebased onto the ambient cwd, so x with the seeded cwd
/home/nyx resolves to /home/nyx/x. -/
theorem canonicalize_examples :
    (∀ cwd : Path, Path.canonicalize ⟨"/a/b/../c"⟩ cwd = ⟨"/a/c"⟩) ∧
    Path.canonicalize ⟨"x"⟩ env.cwd = ⟨"/home/nyx/x"⟩ :=
  ⟨fun _ => rfl, rfl⟩

/-- Claim C7: confirmed.  Canonicalizing an already-canonical absolute
path — one that starts with the separator, has no dot or dot-dot segments,
and is exactly the separator-joined form of its own segments (no empty
segments) — returns the path unchanged, for every cwd. -/
theorem canonicalize_idempotent (p cwd : Path)
    (habs : p.isAbsolute = true)
    (hnd : ∀ s ∈ p.parts, s ≠ ".." ∧ s ≠ ".")
    (hre : p.path = "/" ++ jsJoin "/" p.parts) :
    p.canonicalize cwd = p := by
  unfold Path.canonicalize
  rw [if_pos habs, foldl_canonStep _ _ hnd, List.nil_append, ← hre]

/-- Witness for claim C7 at the canonical absolute path /a/b. -/
theorem canonicalize_idempotent_witness :
    Path.canonicalize ⟨"/a/b"⟩ ⟨"/home/nyx"⟩ = ⟨"/a/b"⟩ :=
  canonicalize_idempotent ⟨"/a/b"⟩ ⟨"/home/nyx"⟩ rfl (by decide) rfl

/-- Claim C8: confirmed.  Resolution never descends through a File: if
some prefix of the path's segments already reaches a File while further
segments remain, resolving the whole path yields NotFound (undefined). -/
theorem resolve_never_descends_file (F : Fs) (p : Path) (pre suf : List String) (f : FsNode)
    (hparts : p.parts = pre ++ suf)
    (hpre : resolveSeg pre F.root = some f)
    (hf : f.isFile = true)
    (hs : suf ≠ []) :
    F.resolve p = none := by
  unfold Fs.resolve
  rw [hparts, resolveSeg_append, hpre]
  cases f with
  | directory md children => simp [FsNode.isFile] at hf
  | file md c =>
    cases suf with
    | nil => exact absurd rfl hs
    | cons s rest => rfl

/-- Witness for claim C8 on the seeded tree: /home/nyx/user.txt is a File,
so resolving /home/nyx/user.txt/x fails. -/
theorem resolve_never_descends_file_witness :
    fs.resolve ⟨"/home/nyx/user.txt/x"⟩ = none :=
  resolve_never_descends_file fs ⟨"/home/nyx/user.txt/x"⟩
    ["home", "nyx", "user.txt"] ["x"] userTxt rfl rfl rfl (by decide)

/-- Claim C9: confirmed.  The tokenizer honors double quotes: the quoted
example keeps its inner space as one token and drops the unescaped quotes;
a quote preceded by a backslash does not toggle quoted mode, so the space
after it still splits; a trailing space yields a final empty token; and
the final accumulated token is always emitted, so the result is never
empty. -/
theorem tokenize_quotes :
    tokenize "cat \"hello world\" x" = ["cat", "hello world", "x"] ∧
    tokenize "a\\\"b c" = ["a\\\"b", "c"] ∧
    tokenize "ab " = ["ab", ""] ∧
    ∀ v : String, tokenize v ≠ [] :=
  ⟨rfl, rfl, rfl, fun _ => tokenizeLoop_ne_nil _ _ _ _ _⟩

/-- Claim C10: confirmed.  Every canonicalized path is rebuilt behind a
single leading separator, so it is absolute; and a dot-dot met while the
output stack is empty pops an empty array, which in JS is a no-op, so
excess dot-dot segments clamp to the root: /.. canonicalizes to / and
/../a to /a, for every cwd. -/
theorem canonicalize_always_absolute :
    (∀ p cwd : Path, (p.canonicalize cwd).isAbsolute = true) ∧
    (∀ cwd : Path, Path.canonicalize ⟨"/.."⟩ cwd = ⟨"/"⟩) ∧
    (∀ cwd : Path, Path.canonicalize ⟨"/../a"⟩ cwd = ⟨"/a"⟩) := by
  refine ⟨fun p cwd => ?_, fun _ => rfl, fun _ => rfl⟩
  unfold Path.canonicalize Path.isAbsolute
  exact jsStartsWith_slash_append _

end TsFs
